import Mathlib

/-
Verification of the job orchestration and progress-tracking engine of the
youtube download API (routes/multiyoutubedownload.js and
routes/singleyoutubedownload.js).

The shallow embedding models:
  - the per-item progress arithmetic of the stage handlers (JS numbers are
    embedded as rationals; the arithmetic involved is exact),
  - one attempt of processDownloadItem (batch path) as the list of item
    states observable by a concurrent poller of GET /status, together with
    the set of files existing on disk,
  - the batch-level bookkeeping (updateBatchProgress, POST /batch/download,
    the completedItems / failedItems counters),
  - one run of processDownload (single-job path) as the list of job states
    observable via GET /download/progress, plus the hourly expiry sweep and
    the GET /download/file route,
  - the bounded download queue (better-queue with concurrent: 3), whose
    admission semantics is modelled from the spec since the library is an
    external dependency; the fact that there is a single module-level queue
    shared by all batches is from the source.

External nondeterminism (network chunks, content-length headers, ffmpeg
progress events, stream errors) is supplied by explicit script structures.
-/

namespace YtDl

/-- Lifecycle states of a batch work item, as stored in item.status by
routes/multiyoutubedownload.js (strings 'pending', 'fetching_info', 'ready',
'queued', 'downloading', 'completed', 'error'). -/
inductive ItemStatus
  | pending
  | fetchingInfo
  | ready
  | queued
  | downloading
  | completed
  | error
deriving DecidableEq, Repr

/-- Observable fields of one batch download item (multiyoutubedownload.js,
objects pushed in /batch/create and mutated by processDownloadItem).
The format/info fields are omitted: no claim mentions them. -/
structure Item where
  status : ItemStatus
  progress : ℚ
  error : Option String
  outputPath : Option String
deriving DecidableEq, Repr

/-- Video-stage progress update: multiyoutubedownload.js lines 286-287
(item.progress = Math.min(40, (videoDownloadedBytes / videoTotalBytes) * 40))
and the same expression in singleyoutubedownload.js lines 69-71. -/
def videoStageProgress (downloaded total : ℚ) : ℚ :=
  min 40 (downloaded / total * 40)

/-- Audio-stage progress update: multiyoutubedownload.js lines 316-317
(item.progress = Math.min(70, 40 + (audioDownloadedBytes / audioTotalBytes) * 30))
and singleyoutubedownload.js lines 106-108. -/
def audioStageProgress (downloaded total : ℚ) : ℚ :=
  min 70 (40 + downloaded / total * 30)

/-- Merge-stage progress update: multiyoutubedownload.js lines 343-344
(item.progress = 70 + (progress.percent || 0) * 0.3) and
singleyoutubedownload.js lines 139-140.  An absent percent field is mapped
to 0 by the JS ||-default, so the argument is an Option. -/
def mergeStageProgress (percent : Option ℚ) : ℚ :=
  70 + percent.getD 0 * 0.3

/-- Single-stream (already muxed or audio-only) progress update:
multiyoutubedownload.js line 368 (item.progress = (downloadedBytes /
totalBytes) * 100, with no clamp). -/
def singleStageProgress (downloaded total : ℚ) : ℚ :=
  downloaded / total * 100

/-- One download sub-stage as seen by its stream event handlers: the parsed
content-length header, the sizes of the data chunks that arrive, whether the
stream finishes or errors, and the error message carried when it errors. -/
structure DownloadScript where
  totalBytes : ℚ
  chunks : List ℚ
  ok : Bool
  errMsg : String
deriving DecidableEq, Repr

/-- The external muxer invocation as seen by the fluent-ffmpeg handlers: a
sequence of progress events (each with an optional percent field), terminal
success or failure, and the failure cause. -/
structure MergeScript where
  events : List (Option ℚ)
  ok : Bool
  errMsg : String
deriving DecidableEq, Repr

/-- The external nondeterminism of one processDownloadItem attempt
(multiyoutubedownload.js lines 234-409).
infoFail: ytdl.getInfo rejects or the selected itag is absent (lines
251-256, before item.outputPath is assigned).
noAudioFormat: the format is video-only and chooseFormat finds no audio
counterpart (lines 267-271, after item.outputPath is assigned).
noStream: the selected format has neither video nor audio, so both download
branches are skipped and the item completes without writing anything.
twoStream: video-only format plus audio plus merge (lines 266-352).
singleStream: a format with audio, downloaded directly (lines 354-381). -/
inductive AttemptScript
  | infoFail (msg : String)
  | noAudioFormat
  | noStream
  | twoStream (video audio : DownloadScript) (merge : MergeScript)
  | singleStream (dl : DownloadScript)
deriving DecidableEq, Repr

/-- Running byte totals after each data chunk (the accumulation
downloadedBytes += chunk.length performed by every data handler). -/
def runningTotals (acc : ℚ) : List ℚ → List ℚ
  | [] => []
  | c :: cs => (acc + c) :: runningTotals (acc + c) cs

/-- Progress values written by a download stage's data handler: one update
per chunk, guarded by the source's check that the parsed content-length is
positive (if (totalBytes > 0) in every data handler; with a missing or
unparsable header no intermediate update is ever written). -/
def stageObs (f : ℚ → ℚ) (total : ℚ) (chunks : List ℚ) : List ℚ :=
  if 0 < total then (runningTotals 0 chunks).map f else []

/-- A state observable by a concurrent poller: the item's fields plus the
set of files currently existing in the temp directory. -/
structure IObs where
  item : Item
  files : List String
deriving DecidableEq, Repr

/-- Create a file on disk (fs.createWriteStream / ffmpeg .save). -/
def addFile (f : String) (fs : List String) : List String :=
  if f ∈ fs then fs else fs ++ [f]

/-- cleanupFiles (multiyoutubedownload.js lines 37-47): unlink each listed
path that exists; deleting an absent file is a no-op. -/
def removeFiles (del : List String) (fs : List String) : List String :=
  fs.filter fun f => !del.contains f

/-- Observation states produced by a stage's successive progress writes:
only item.progress changes, all other fields and the file set are fixed. -/
def progressObs (it : Item) (fs : List String) (ps : List ℚ) : List IObs :=
  ps.map fun p => ⟨{ it with progress := p }, fs⟩

/-- The catch block of processDownloadItem (lines 392-407): the item becomes
status 'error' with the cause recorded and progress reset to 0; then, if
item.outputPath is set, the output file is unlinked and the field nulled.
Both intermediate states are observable. -/
def failureObs (it : Item) (fs : List String) (msg : String) : List IObs :=
  let itE : Item := { it with status := ItemStatus.error, error := some msg, progress := 0 }
  match it.outputPath with
  | some p => [⟨itE, fs⟩, ⟨{ itE with outputPath := none }, removeFiles [p] fs⟩]
  | none => [⟨itE, fs⟩]

/-- One attempt of processDownloadItem (multiyoutubedownload.js lines
234-409) on an item currently in state it0, as the sequence of observable
states it produces.  vp, ap, op are the video / audio / output temp paths
built on lines 260-262.  Attempt start sets status 'downloading' (line 249)
without touching item.error; item.outputPath is assigned on line 264 before
any download begins; the stage milestones 40 and 70 are lines 300 and 330;
success sets status 'completed' and progress 100 (lines 383-384) after the
scratch files are removed (line 352). -/
def processAttempt (vp ap op : String) (it0 : Item) (fs0 : List String) :
    AttemptScript → List IObs
  | .infoFail msg =>
      let it1 : Item := { it0 with status := ItemStatus.downloading }
      ⟨it1, fs0⟩ :: failureObs it1 fs0 msg
  | .noAudioFormat =>
      let it1 : Item := { it0 with status := ItemStatus.downloading }
      let it2 : Item := { it1 with outputPath := some op }
      ⟨it1, fs0⟩ :: ⟨it2, fs0⟩ :: failureObs it2 fs0 "No suitable audio format found"
  | .noStream =>
      let it1 : Item := { it0 with status := ItemStatus.downloading }
      let it2 : Item := { it1 with outputPath := some op }
      [⟨it1, fs0⟩, ⟨it2, fs0⟩,
       ⟨{ it2 with status := ItemStatus.completed, progress := 100 }, fs0⟩]
  | .twoStream v a m =>
      let it1 : Item := { it0 with status := ItemStatus.downloading }
      let it2 : Item := { it1 with outputPath := some op }
      let fs1 := addFile vp fs0
      let vObs := progressObs it2 fs1
        (stageObs (fun d => videoStageProgress d v.totalBytes) v.totalBytes v.chunks)
      if v.ok then
        let it3 : Item := { it2 with progress := 40 }
        let fs2 := addFile ap fs1
        let aObs := progressObs it3 fs2
          (stageObs (fun d => audioStageProgress d a.totalBytes) a.totalBytes a.chunks)
        if a.ok then
          let it4 : Item := { it3 with progress := 70 }
          let fs3 := addFile op fs2
          let mObs := progressObs it4 fs3 (m.events.map mergeStageProgress)
          if m.ok then
            ⟨it1, fs0⟩ :: ⟨it2, fs0⟩ ::
              (vObs ++ ⟨it3, fs2⟩ ::
                (aObs ++ ⟨it4, fs3⟩ ::
                  (mObs ++
                    [⟨{ it4 with status := ItemStatus.completed, progress := 100 },
                      removeFiles [vp, ap] fs3⟩])))
          else
            ⟨it1, fs0⟩ :: ⟨it2, fs0⟩ ::
              (vObs ++ ⟨it3, fs2⟩ ::
                (aObs ++ ⟨it4, fs3⟩ :: (mObs ++ failureObs it4 fs3 m.errMsg)))
        else
          ⟨it1, fs0⟩ :: ⟨it2, fs0⟩ ::
            (vObs ++ ⟨it3, fs2⟩ :: (aObs ++ failureObs it3 fs2 a.errMsg))
      else
        ⟨it1, fs0⟩ :: ⟨it2, fs0⟩ :: (vObs ++ failureObs it2 fs1 v.errMsg)
  | .singleStream d =>
      let it1 : Item := { it0 with status := ItemStatus.downloading }
      let it2 : Item := { it1 with outputPath := some op }
      let fs1 := addFile op fs0
      let sObs := progressObs it2 fs1
        (stageObs (fun b => singleStageProgress b d.totalBytes) d.totalBytes d.chunks)
      if d.ok then
        ⟨it1, fs0⟩ :: ⟨it2, fs0⟩ ::
          (sObs ++ [⟨{ it2 with status := ItemStatus.completed, progress := 100 }, fs1⟩])
      else
        ⟨it1, fs0⟩ :: ⟨it2, fs0⟩ :: (sObs ++ failureObs it2 fs1 d.errMsg)

/-- The output artifact referenced by item.outputPath exists on disk
(the fs.existsSync(item.outputPath) check of GET /batch/download/item). -/
def artifactPresent (obs : IObs) : Bool :=
  match obs.item.outputPath with
  | some p => obs.files.contains p
  | none => false

/-- A queued batch item about to be processed for the first time. -/
def demoItem : Item := ⟨ItemStatus.queued, 0, none, none⟩

/-- A single-stream (already muxed) download of 10 bytes that arrives in one
10-byte chunk and succeeds. -/
def c1Script : AttemptScript := .singleStream ⟨10, [10], true, "network error"⟩

/-- A batch item as it stands when better-queue requeues it after a failed
attempt: status 'error' with the previous attempt's cause recorded. -/
def staleItem : Item := ⟨ItemStatus.error, 0, some "video error", none⟩

/-- The progress values a poller observes before the merge stage begins on
the two-stream path: the two attempt-start states (progress still at the
attempt-start value p0), the video data events, the milestone 40, the audio
data events and the milestone 70. -/
def preMergeObs (p0 : ℚ) (v a : DownloadScript) : List ℚ :=
  ([p0, p0] ++ stageObs (fun d => videoStageProgress d v.totalBytes) v.totalBytes v.chunks) ++
    ((40 :: stageObs (fun d => audioStageProgress d a.totalBytes) a.totalBytes a.chunks) ++ [70])

/-- A 1-byte video download that succeeds. -/
def c3v : DownloadScript := ⟨1, [1], true, "video error"⟩

/-- A 1-byte audio download that succeeds. -/
def c3a : DownloadScript := ⟨1, [1], true, "audio error"⟩

/-- A merge that first reports percent 50, then emits a progress event with
no percent field, then succeeds. -/
def c3m : MergeScript := ⟨[some 50, none], true, "merge error"⟩

/-- Two-stream attempt whose muxer emits a fraction-less progress event. -/
def c3Script : AttemptScript := .twoStream c3v c3a c3m

/-- Aggregate status of a batch job (batchJob.status strings 'created',
'fetching_info', 'ready', 'failed', 'downloading', 'completed'). -/
inductive BatchStatus
  | created
  | fetchingInfo
  | ready
  | failed
  | downloading
  | completed
deriving DecidableEq, Repr

/-- A batch job as stored in the batchJobs map (multiyoutubedownload.js
lines 58-67). -/
structure Batch where
  items : List Item
  status : BatchStatus
  progress : ℚ
  totalItems : ℕ
  completedItems : ℕ
  failedItems : ℕ
deriving DecidableEq, Repr

/-- Number of items counted as pending by updateBatchProgress: status
'queued' or 'downloading' (multiyoutubedownload.js lines 418-421). -/
def pendingItemCount (items : List Item) : ℕ :=
  (items.filter fun i =>
    i.status == ItemStatus.queued || i.status == ItemStatus.downloading).length

/-- updateBatchProgress (multiyoutubedownload.js lines 410-426): recompute
batchJob.progress as the mean of item progresses and set the status to
'completed' when no item is queued or downloading, otherwise leave the
status unchanged. -/
def updateBatchProgress (b : Batch) : Batch :=
  let totalProgress := (b.items.map Item.progress).sum
  let pending := pendingItemCount b.items
  { b with
    progress := totalProgress / (b.totalItems : ℚ),
    status := if pending = 0 then BatchStatus.completed else b.status }

/-- POST /batch/download (multiyoutubedownload.js lines 186-232, with the
per-item format overrides omitted since no modelled field depends on them):
unconditionally set the batch status to 'downloading', move every 'ready'
item to 'queued' (those are exactly the tasks pushed onto downloadQueue),
and report the number of queued items. -/
def batchDownload (b : Batch) : Batch × ℕ :=
  let b1 : Batch := { b with status := BatchStatus.downloading }
  let items := b1.items.map fun i =>
    if i.status == ItemStatus.ready then { i with status := ItemStatus.queued } else i
  let b2 : Batch := { b1 with items := items }
  (b2, (items.filter fun i => i.status == ItemStatus.queued).length)

/-- The item state written by the catch block of processDownloadItem
(lines 395-405): status 'error', cause recorded, progress reset to 0 and
the outputPath nulled after cleanup. -/
def failedItem (it : Item) (msg : String) : Item :=
  { it with status := ItemStatus.error, error := some msg, progress := 0,
            outputPath := none }

/-- Final item state of one processDownloadItem attempt together with its
success flag, mirroring lines 248-408: status 'downloading' at start,
outputPath assigned once the format resolves, then either the terminal
success assignment (status 'completed', progress 100, lines 383-384) or the
catch block. -/
def attemptFinal (op : String) (it0 : Item) : AttemptScript → Item × Bool
  | .infoFail msg =>
      (failedItem { it0 with status := ItemStatus.downloading } msg, false)
  | .noAudioFormat =>
      (failedItem { it0 with status := ItemStatus.downloading, outputPath := some op }
        "No suitable audio format found", false)
  | .noStream =>
      ({ it0 with status := ItemStatus.completed, progress := 100,
                  outputPath := some op }, true)
  | .twoStream v a m =>
      let it2 : Item := { it0 with status := ItemStatus.downloading, outputPath := some op }
      if v.ok then
        if a.ok then
          if m.ok then
            ({ it2 with status := ItemStatus.completed, progress := 100 }, true)
          else (failedItem it2 m.errMsg, false)
        else (failedItem it2 a.errMsg, false)
      else (failedItem it2 v.errMsg, false)
  | .singleStream d =>
      let it2 : Item := { it0 with status := ItemStatus.downloading, outputPath := some op }
      if d.ok then ({ it2 with status := ItemStatus.completed, progress := 100 }, true)
      else (failedItem it2 d.errMsg, false)

/-- Effect of one processDownloadItem attempt on the owning batch (lines
234-409): the item at index idx is replaced by its attempt-final state,
completedItems is incremented on success (line 385) and failedItems on
failure (line 398) — once per attempt, including attempts that better-queue
later retries — and updateBatchProgress runs.  If the item is missing the
function throws before mutating anything. -/
def batchAttempt (op : String) (b : Batch) (idx : ℕ) (s : AttemptScript) : Batch :=
  match b.items.get? idx with
  | none => b
  | some it0 =>
      let r := attemptFinal op it0 s
      updateBatchProgress
        { b with
          items := b.items.set idx r.1,
          completedItems := if r.2 then b.completedItems + 1 else b.completedItems,
          failedItems := if r.2 then b.failedItems else b.failedItems + 1 }

/-- A sequence of attempt executions performed by the download queue after
a batch download is started. -/
def runPlan (op : String) (b : Batch) (plan : List (ℕ × AttemptScript)) : Batch :=
  plan.foldl (fun acc t => batchAttempt op acc t.1 t.2) b

/-- Indices of the items that POST /batch/download pushes onto the
download queue: exactly the items whose status is 'ready'. -/
def readyIndices (b : Batch) : List ℕ :=
  (List.range b.items.length).filter fun k =>
    ((b.items.get? k).map Item.status).getD ItemStatus.pending == ItemStatus.ready

/-- An item whose info resolved and which awaits the download phase. -/
def readyItem : Item := ⟨ItemStatus.ready, 0, none, none⟩

/-- A one-item batch after info-resolution. -/
def c4Batch : Batch := ⟨[readyItem], BatchStatus.ready, 0, 1, 0, 0⟩

/-- A single-stream attempt that dies mid-transfer. -/
def c4FailScript : AttemptScript := .singleStream ⟨8, [4], false, "network error"⟩

/-- The retried attempt, which succeeds. -/
def c4OkScript : AttemptScript := .singleStream ⟨8, [4, 4], true, "network error"⟩

/-- The batch after its only item fails once and succeeds on the retry. -/
def c4Final : Batch :=
  batchAttempt "o" (batchAttempt "o" (batchDownload c4Batch).1 0 c4FailScript) 0 c4OkScript

/-- A batch item whose info-resolution was never invoked. -/
def pendingItem : Item := ⟨ItemStatus.pending, 0, none, none⟩

/-- A one-item batch on which /batch/info was never called. -/
def c5Batch : Batch := ⟨[pendingItem], BatchStatus.created, 0, 1, 0, 0⟩

/-- A standalone single download job as stored in the activeJobs registry
(singleyoutubedownload.js lines 233-244).  The url, title and path fields
are omitted: no claim mentions them; createdAt drives the hourly expiry
sweep. -/
structure SJob where
  progress : ℚ
  completed : Bool
  error : Option String
  createdAt : ℤ
deriving DecidableEq, Repr

/-- Progress-only update of a single job record (the writes job.progress =
... performed by the stream and muxer handlers). -/
def setProg (j : SJob) (p : ℚ) : SJob := { j with progress := p }

/-- The external nondeterminism of one processDownload run
(singleyoutubedownload.js lines 50-163): the video stream, the audio
stream and the muxer invocation.  The 100ms coalescing of intermediate
progress writes (lines 62-74, 99-111) only drops some intermediate
updates; it is not modelled, since no claim depends on it. -/
structure SingleScript where
  video : DownloadScript
  audio : DownloadScript
  merge : MergeScript
deriving DecidableEq, Repr

/-- One run of processDownload (singleyoutubedownload.js lines 50-163) as
the list of job states observable via GET /download/progress: video data
events (clamped to 40), milestone 40, audio data events (clamped to 70),
milestone 70, muxer progress events (70 + 0.3 * percent-or-0), then either
the terminal success write (progress 100, completed true, lines 148-152) or
the catch block (lines 153-162), which only records job.error and leaves
progress and completed untouched. -/
def processDownloadS (j0 : SJob) (s : SingleScript) : List SJob :=
  let vObs := (stageObs (fun d => videoStageProgress d s.video.totalBytes)
    s.video.totalBytes s.video.chunks).map (setProg j0)
  if s.video.ok then
    let j1 := setProg j0 40
    let aObs := (stageObs (fun d => audioStageProgress d s.audio.totalBytes)
      s.audio.totalBytes s.audio.chunks).map (setProg j1)
    if s.audio.ok then
      let j2 := setProg j1 70
      let mObs := (s.merge.events.map mergeStageProgress).map (setProg j2)
      if s.merge.ok then
        vObs ++ j1 :: (aObs ++ j2 :: (mObs ++
          [{ j2 with progress := 100, completed := true }]))
      else
        vObs ++ j1 :: (aObs ++ j2 :: (mObs ++
          [{ mObs.getLast?.getD j2 with error := some s.merge.errMsg }]))
    else
      vObs ++ j1 :: (aObs ++
        [{ aObs.getLast?.getD j1 with error := some s.audio.errMsg }])
  else
    vObs ++ [{ vObs.getLast?.getD j0 with error := some s.video.errMsg }]

/-- The job state left in the registry once processDownload has returned. -/
def finalJobS (j0 : SJob) (s : SingleScript) : SJob :=
  (processDownloadS j0 s).getLast?.getD j0

/-- The body of a GET /download/progress response (lines 267-272). -/
structure ProgressResponse where
  progress : ℚ
  completed : Bool
  error : Option String
deriving DecidableEq, Repr

/-- GET /download/progress (singleyoutubedownload.js lines 260-273). -/
def progressRoute (job : Option SJob) : Option ProgressResponse :=
  job.map fun j => ⟨j.progress, j.completed, j.error⟩

/-- The hourly cleanup sweep (singleyoutubedownload.js lines 26-34): delete
every registry entry older than one hour, releasing its files first. -/
def cleanupSweep (now : ℤ) (jobs : List (String × SJob)) : List (String × SJob) :=
  jobs.filter fun e => !decide (3600000 < now - e.2.createdAt)

/-- The possible responses of GET /download/file (singleyoutubedownload.js
lines 276-304), in source order: unknown job, job not completed yet, job
error recorded, output file missing, file stream. -/
inductive FileResponse
  | jobNotFound
  | notCompleted
  | jobError (msg : String)
  | outputMissing
  | fileStream
deriving DecidableEq, Repr

/-- GET /download/file (singleyoutubedownload.js lines 276-304): the
completed check (line 285) runs before the error check (line 289). -/
def downloadFileRoute (job : Option SJob) (outputExists : Bool) : FileResponse :=
  match job with
  | none => FileResponse.jobNotFound
  | some j =>
      if !j.completed then FileResponse.notCompleted
      else
        match j.error with
        | some msg => FileResponse.jobError msg
        | none =>
            if !outputExists then FileResponse.outputMissing
            else FileResponse.fileStream

/-- A failed single job registered at time 0, with the last progress value
35 recorded before processing died. -/
def c7FailedJob : SJob := ⟨35, false, some "Download failed", 0⟩

/-- A single job whose processing is still running. -/
def c7RunningJob : SJob := ⟨35, false, none, 0⟩

/-- A single job entry as created by GET /download/start. -/
def freshSJob : SJob := ⟨0, false, none, 0⟩

/-- A run whose muxer reports 100 percent and then fails. -/
def c10Script : SingleScript :=
  ⟨⟨1, [1], true, "video error"⟩, ⟨1, [1], true, "audio error"⟩,
   ⟨[some 100], false, "merge failed"⟩⟩

/-- The video-stage observation states of a single-job run. -/
def vObsS (j0 : SJob) (s : SingleScript) : List SJob :=
  (stageObs (fun d => videoStageProgress d s.video.totalBytes)
    s.video.totalBytes s.video.chunks).map (setProg j0)

/-- The audio-stage observation states of a single-job run. -/
def aObsS (j0 : SJob) (s : SingleScript) : List SJob :=
  (stageObs (fun d => audioStageProgress d s.audio.totalBytes)
    s.audio.totalBytes s.audio.chunks).map (setProg (setProg j0 40))

/-- The merge-stage observation states of a single-job run. -/
def mObsS (j0 : SJob) (s : SingleScript) : List SJob :=
  (s.merge.events.map mergeStageProgress).map (setProg (setProg (setProg j0 40) 70))

/-- A download task pushed onto the queue: (batch index, item index).  Tasks
from every batch go to the same process-wide queue, since downloadQueue is a
single module-level constant (multiyoutubedownload.js lines 23-35) shared by
all POST /batch/download invocations. -/
structure QTask where
  batchIdx : ℕ
  itemIdx : ℕ
deriving DecidableEq, Repr

/-- Modelled from the spec: the state of the better-queue download queue —
the tasks waiting in FIFO order and the tasks whose executor is currently
running.  The library itself is an external dependency; its admission
semantics ('admits at most K (default 3) to concurrent execution at a time;
remaining items wait in Queued', instantiated with the source's
concurrent: 3 option) is modelled here. -/
structure SchedState where
  waiting : List QTask
  active : List QTask
deriving DecidableEq, Repr

/-- Modelled from the spec: the transitions of the bounded download queue.
push appends a task (downloadQueue.push); begin admits the head waiting
task to execution only while fewer than 3 executors are active; finish
removes a running task when its executor completes or fails. -/
inductive SchedStep : SchedState → SchedState → Prop
  | push (s : SchedState) (t : QTask) :
      SchedStep s ⟨s.waiting ++ [t], s.active⟩
  | begin (s : SchedState) (t : QTask) (rest : List QTask)
      (hw : s.waiting = t :: rest) (hcap : s.active.length < 3) :
      SchedStep s ⟨rest, s.active ++ [t]⟩
  | finish (s : SchedState) (t : QTask) (hmem : t ∈ s.active) :
      SchedStep s ⟨s.waiting, s.active.erase t⟩

/-- States reachable from the empty queue the process starts with. -/
inductive SchedReach : SchedState → Prop
  | init : SchedReach ⟨[], []⟩
  | next {s s' : SchedState} : SchedReach s → SchedStep s s' → SchedReach s'

/-- Queue state with three executors active — two from batch 0, one from
batch 1 — and a fourth task waiting. -/
def schedDemo : SchedState :=
  ⟨[⟨1, 3⟩], [⟨0, 0⟩, ⟨1, 1⟩, ⟨0, 2⟩]⟩

/-- C2: the global progress of a work item is computed from the stage-local
fraction f = downloaded / total as 40 * f during the video download,
40 + 30 * f during the audio download, and 70 + 30 * f during the merge
(whose muxer reports the percentage 100 * f) on the two-stream path, and as
100 * f on the single-stream path.  The download-stage expressions carry a
Math.min clamp in the source, which is the identity while f is at most 1. -/
theorem C2_stage_weighting (d t : ℚ) (hd : 0 ≤ d) (hdt : d ≤ t) (ht : 0 < t) :
    videoStageProgress d t = 40 * (d / t) ∧
    audioStageProgress d t = 40 + 30 * (d / t) ∧
    mergeStageProgress (some (100 * (d / t))) = 70 + 30 * (d / t) ∧
    singleStageProgress d t = 100 * (d / t) := by
  have hf1 : d / t ≤ 1 := (div_le_one ht).mpr hdt
  have hf0 : 0 ≤ d / t := div_nonneg hd ht.le
  refine ⟨?_, ?_, ?_, ?_⟩
  · have h40 : d / t * 40 ≤ 40 := by nlinarith
    rw [videoStageProgress, min_eq_right h40]; ring
  · have h70 : 40 + d / t * 30 ≤ 70 := by nlinarith
    rw [audioStageProgress, min_eq_right h70]; ring
  · rw [mergeStageProgress, Option.getD_some]
    norm_num
    ring
  · rw [singleStageProgress]; ring

/-- Witness for C2 at the concrete fraction 1/2 (1 byte of 2 received):
progress is 20, 55, 85 and 50 in the four weighted stages. -/
theorem C2_stage_weighting_witness :
    videoStageProgress 1 2 = 40 * (1 / 2 : ℚ) ∧
    audioStageProgress 1 2 = 40 + 30 * (1 / 2 : ℚ) ∧
    mergeStageProgress (some (100 * (1 / 2 : ℚ))) = 70 + 30 * (1 / 2 : ℚ) ∧
    singleStageProgress 1 2 = 100 * (1 / 2 : ℚ) :=
  C2_stage_weighting 1 2 (by norm_num) (by norm_num) (by norm_num)

theorem mem_progressObs {it : Item} {fs : List String} {ps : List ℚ} {obs : IObs}
    (h : obs ∈ progressObs it fs ps) :
    obs.item.status = it.status ∧ obs.item.error = it.error ∧
      obs.item.outputPath = it.outputPath ∧ obs.files = fs := by
  simp only [progressObs, List.mem_map] at h
  obtain ⟨p, -, rfl⟩ := h
  exact ⟨rfl, rfl, rfl, rfl⟩

theorem mem_failureObs {it : Item} {fs : List String} {msg : String} {obs : IObs}
    (h : obs ∈ failureObs it fs msg) :
    obs.item.status = ItemStatus.error ∧ obs.item.error = some msg := by
  unfold failureObs at h
  rcases hop : it.outputPath with _ | p <;> rw [hop] at h <;>
    simp only [List.mem_cons, List.not_mem_nil, or_false] at h
  · subst h; exact ⟨rfl, rfl⟩
  · rcases h with rfl | rfl
    · exact ⟨rfl, rfl⟩
    · exact ⟨rfl, rfl⟩

theorem mem_addFile (f : String) (fs : List String) : f ∈ addFile f fs := by
  unfold addFile
  split
  · assumption
  · simp

theorem mem_addFile_of_mem {f g : String} {fs : List String} (h : f ∈ fs) :
    f ∈ addFile g fs := by
  unfold addFile
  split
  · exact h
  · exact List.mem_append_left _ h

theorem mem_removeFiles {f : String} {del fs : List String}
    (hf : f ∈ fs) (hdel : f ∉ del) : f ∈ removeFiles del fs := by
  simp only [removeFiles, List.mem_filter]
  exact ⟨hf, by simpa using hdel⟩

theorem artifactPresent_of {obs : IObs} {p : String}
    (hout : obs.item.outputPath = some p) (hmem : p ∈ obs.files) :
    artifactPresent obs = true := by
  unfold artifactPresent
  rw [hout]
  simpa using hmem

/-- Every state observable during one processDownloadItem attempt is either a
working state (status 'downloading', errorDetail unchanged from attempt
start), a failure state (status 'error' with a recorded cause), or the
terminal success state (status 'completed', progress 100, errorDetail still
unchanged from attempt start, outputPath set, and, except for a format with
neither stream, the output artifact on disk when the temp paths are
distinct). -/
theorem processAttempt_cases (vp ap op : String) (it0 : Item) (fs0 : List String)
    (s : AttemptScript) (obs : IObs) (h : obs ∈ processAttempt vp ap op it0 fs0 s) :
    (obs.item.status = ItemStatus.downloading ∧ obs.item.error = it0.error) ∨
    (obs.item.status = ItemStatus.error ∧ obs.item.error ≠ none) ∨
    (obs.item.status = ItemStatus.completed ∧ obs.item.progress = 100 ∧
      obs.item.error = it0.error ∧ obs.item.outputPath = some op ∧
      (s = AttemptScript.noStream ∨ (vp ≠ op → ap ≠ op → artifactPresent obs = true))) := by
  cases s with
  | infoFail msg =>
      simp only [processAttempt, List.mem_cons] at h
      rcases h with rfl | h
      · exact Or.inl ⟨rfl, rfl⟩
      · exact Or.inr (Or.inl ⟨(mem_failureObs h).1, by simp [(mem_failureObs h).2]⟩)
  | noAudioFormat =>
      simp only [processAttempt, List.mem_cons] at h
      rcases h with rfl | rfl | h
      · exact Or.inl ⟨rfl, rfl⟩
      · exact Or.inl ⟨rfl, rfl⟩
      · exact Or.inr (Or.inl ⟨(mem_failureObs h).1, by simp [(mem_failureObs h).2]⟩)
  | noStream =>
      simp only [processAttempt, List.mem_cons, List.not_mem_nil, or_false] at h
      rcases h with rfl | rfl | rfl
      · exact Or.inl ⟨rfl, rfl⟩
      · exact Or.inl ⟨rfl, rfl⟩
      · exact Or.inr (Or.inr ⟨rfl, rfl, rfl, rfl, Or.inl rfl⟩)
  | twoStream v a m =>
      simp only [processAttempt] at h
      split at h
      · split at h
        · split at h
          · -- all three stages succeed
            simp only [List.mem_cons, List.mem_append, List.mem_singleton,
              List.not_mem_nil, or_false] at h
            rcases h with rfl | rfl | hv | rfl | ha | rfl | hm | rfl
            · exact Or.inl ⟨rfl, rfl⟩
            · exact Or.inl ⟨rfl, rfl⟩
            · exact Or.inl ⟨(mem_progressObs hv).1, (mem_progressObs hv).2.1⟩
            · exact Or.inl ⟨rfl, rfl⟩
            · exact Or.inl ⟨(mem_progressObs ha).1, (mem_progressObs ha).2.1⟩
            · exact Or.inl ⟨rfl, rfl⟩
            · exact Or.inl ⟨(mem_progressObs hm).1, (mem_progressObs hm).2.1⟩
            · refine Or.inr (Or.inr ⟨rfl, rfl, rfl, rfl, Or.inr fun hvo hao => ?_⟩)
              exact artifactPresent_of rfl
                (mem_removeFiles (mem_addFile op _) (by simp [Ne.symm hvo, Ne.symm hao]))
          · -- merge fails
            simp only [List.mem_cons, List.mem_append] at h
            rcases h with rfl | rfl | hv | rfl | ha | rfl | hm | hf
            · exact Or.inl ⟨rfl, rfl⟩
            · exact Or.inl ⟨rfl, rfl⟩
            · exact Or.inl ⟨(mem_progressObs hv).1, (mem_progressObs hv).2.1⟩
            · exact Or.inl ⟨rfl, rfl⟩
            · exact Or.inl ⟨(mem_progressObs ha).1, (mem_progressObs ha).2.1⟩
            · exact Or.inl ⟨rfl, rfl⟩
            · exact Or.inl ⟨(mem_progressObs hm).1, (mem_progressObs hm).2.1⟩
            · exact Or.inr (Or.inl ⟨(mem_failureObs hf).1, by simp [(mem_failureObs hf).2]⟩)
        · -- audio download fails
          simp only [List.mem_cons, List.mem_append] at h
          rcases h with rfl | rfl | hv | rfl | ha | hf
          · exact Or.inl ⟨rfl, rfl⟩
          · exact Or.inl ⟨rfl, rfl⟩
          · exact Or.inl ⟨(mem_progressObs hv).1, (mem_progressObs hv).2.1⟩
          · exact Or.inl ⟨rfl, rfl⟩
          · exact Or.inl ⟨(mem_progressObs ha).1, (mem_progressObs ha).2.1⟩
          · exact Or.inr (Or.inl ⟨(mem_failureObs hf).1, by simp [(mem_failureObs hf).2]⟩)
      · -- video download fails
        simp only [List.mem_cons, List.mem_append] at h
        rcases h with rfl | rfl | hv | hf
        · exact Or.inl ⟨rfl, rfl⟩
        · exact Or.inl ⟨rfl, rfl⟩
        · exact Or.inl ⟨(mem_progressObs hv).1, (mem_progressObs hv).2.1⟩
        · exact Or.inr (Or.inl ⟨(mem_failureObs hf).1, by simp [(mem_failureObs hf).2]⟩)
  | singleStream d =>
      simp only [processAttempt] at h
      split at h
      · simp only [List.mem_cons, List.mem_append, List.mem_singleton,
          List.not_mem_nil, or_false] at h
        rcases h with rfl | rfl | hs | rfl
        · exact Or.inl ⟨rfl, rfl⟩
        · exact Or.inl ⟨rfl, rfl⟩
        · exact Or.inl ⟨(mem_progressObs hs).1, (mem_progressObs hs).2.1⟩
        · refine Or.inr (Or.inr ⟨rfl, rfl, rfl, rfl, Or.inr fun hvo hao => ?_⟩)
          exact artifactPresent_of rfl (mem_addFile op _)
      · simp only [List.mem_cons, List.mem_append] at h
        rcases h with rfl | rfl | hs | hf
        · exact Or.inl ⟨rfl, rfl⟩
        · exact Or.inl ⟨rfl, rfl⟩
        · exact Or.inl ⟨(mem_progressObs hs).1, (mem_progressObs hs).2.1⟩
        · exact Or.inr (Or.inl ⟨(mem_failureObs hf).1, by simp [(mem_failureObs hf).2]⟩)

theorem c1Trace_eq :
    processAttempt "v" "a" "o" demoItem [] c1Script =
      [⟨⟨ItemStatus.downloading, 0, none, none⟩, []⟩,
       ⟨⟨ItemStatus.downloading, 0, none, some "o"⟩, []⟩,
       ⟨⟨ItemStatus.downloading, 100, none, some "o"⟩, ["o"]⟩,
       ⟨⟨ItemStatus.completed, 100, none, some "o"⟩, ["o"]⟩] := by
  norm_num [processAttempt, c1Script, demoItem, progressObs, stageObs, runningTotals,
    singleStageProgress, addFile]

/-- C1 (counterexample): the completion invariant as stated is false on the
code.  On the single-stream batch path the data handler writes progress =
(downloadedBytes / totalBytes) * 100 with no clamp, so when the final chunk
arrives the poller can observe progress = 100 (with outputPath already set
at processing start and the output file on disk) while the item status is
still 'downloading': 'progress never equals or exceeds 100 while the item is
non-terminal' fails, and so does the right-to-left direction of the iff. -/
theorem C1_counterexample :
    ¬ (∀ obs ∈ processAttempt "v" "a" "o" demoItem [] c1Script,
        (obs.item.status = ItemStatus.completed ↔
          (obs.item.progress = 100 ∧ obs.item.outputPath ≠ none ∧
            artifactPresent obs = true)) ∧
        (obs.item.status ≠ ItemStatus.completed → obs.item.progress < 100)) := by
  intro hall
  have h3 := hall ⟨⟨ItemStatus.downloading, 100, none, some "o"⟩, ["o"]⟩
    (by rw [c1Trace_eq]; simp)
  have hlt := h3.2 (by intro hc; exact ItemStatus.noConfusion hc)
  norm_num at hlt

/-- C1 (amended): stage Completed implies progress 100 and outputLocation
set, and, whenever the selected format carries at least one stream and the
three temp paths are distinct, the output artifact exists on disk; the
converse direction of the original claim fails (see the counterexample:
outputPath is assigned at processing start, and progress transiently reaches
100 at the final data event while the stage is still Downloading). -/
theorem C1_amended (vp ap op : String) (it0 : Item) (fs0 : List String)
    (s : AttemptScript) (obs : IObs)
    (hvo : vp ≠ op) (hao : ap ≠ op) (hs : s ≠ AttemptScript.noStream)
    (h : obs ∈ processAttempt vp ap op it0 fs0 s)
    (hc : obs.item.status = ItemStatus.completed) :
    obs.item.progress = 100 ∧ obs.item.outputPath = some op ∧
      artifactPresent obs = true := by
  rcases processAttempt_cases vp ap op it0 fs0 s obs h with h1 | h2 | h3
  · rw [hc] at h1
    exact absurd h1.1 (by intro q; exact ItemStatus.noConfusion q)
  · rw [hc] at h2
    exact absurd h2.1 (by intro q; exact ItemStatus.noConfusion q)
  · rcases h3 with ⟨-, hp, -, hout, hart⟩
    rcases hart with hns | hart
    · exact absurd hns hs
    · exact ⟨hp, hout, hart hvo hao⟩

/-- Witness for C1 (amended) at the terminal state of the concrete
single-stream trace. -/
theorem C1_amended_witness :
    (⟨⟨ItemStatus.completed, 100, none, some "o"⟩, ["o"]⟩ : IObs).item.progress = 100 ∧
    (⟨⟨ItemStatus.completed, 100, none, some "o"⟩, ["o"]⟩ : IObs).item.outputPath = some "o" ∧
    artifactPresent ⟨⟨ItemStatus.completed, 100, none, some "o"⟩, ["o"]⟩ = true :=
  C1_amended "v" "a" "o" demoItem [] c1Script
    ⟨⟨ItemStatus.completed, 100, none, some "o"⟩, ["o"]⟩
    (by decide) (by decide) (by intro hq; exact AttemptScript.noConfusion hq)
    (by rw [c1Trace_eq]; simp) rfl

theorem c6Trace_eq :
    processAttempt "v" "a" "o" staleItem [] c1Script =
      [⟨⟨ItemStatus.downloading, 0, some "video error", none⟩, []⟩,
       ⟨⟨ItemStatus.downloading, 0, some "video error", some "o"⟩, []⟩,
       ⟨⟨ItemStatus.downloading, 100, some "video error", some "o"⟩, ["o"]⟩,
       ⟨⟨ItemStatus.completed, 100, some "video error", some "o"⟩, ["o"]⟩] := by
  norm_num [processAttempt, c1Script, staleItem, progressObs, stageObs, runningTotals,
    singleStageProgress, addFile]

/-- C6 (counterexample): a requeued item's errorDetail is never cleared
(line 249 of processDownloadItem only sets status = 'downloading'), so on a
retry attempt that succeeds the item is observed Downloading and finally
Completed with the stale errorDetail still present, refuting both
'errorDetail non-null exactly when stage is Failed' and 'cleared before the
new attempt begins'. -/
theorem C6_counterexample :
    ¬ (∀ obs ∈ processAttempt "v" "a" "o" staleItem [] c1Script,
        (obs.item.error ≠ none ↔ obs.item.status = ItemStatus.error)) := by
  intro hall
  have h := hall ⟨⟨ItemStatus.completed, 100, some "video error", some "o"⟩, ["o"]⟩
    (by rw [c6Trace_eq]; simp)
  have h2 := h.mp (by simp)
  exact ItemStatus.noConfusion h2

/-- C6 (amended): during one attempt, errorDetail changes only at the
failure transition, where the cause is recorded; every other observable
state (including the start of a requeued attempt and the terminal Completed
state) carries the errorDetail the item had when the attempt began, i.e.
requeueing does not clear it. -/
theorem C6_amended (vp ap op : String) (it0 : Item) (fs0 : List String)
    (s : AttemptScript) (obs : IObs)
    (h : obs ∈ processAttempt vp ap op it0 fs0 s) :
    obs.item.error = it0.error ∨
      (obs.item.status = ItemStatus.error ∧ obs.item.error ≠ none) := by
  rcases processAttempt_cases vp ap op it0 fs0 s obs h with h1 | h2 | h3
  · exact Or.inl h1.2
  · exact Or.inr h2
  · exact Or.inl h3.2.2.1

/-- Witness for C6 (amended) at the first state of a retry attempt on an
item whose previous attempt failed. -/
theorem C6_amended_witness :
    (⟨⟨ItemStatus.downloading, 0, some "video error", none⟩, []⟩ : IObs).item.error =
        staleItem.error ∨
    ((⟨⟨ItemStatus.downloading, 0, some "video error", none⟩, []⟩ : IObs).item.status =
        ItemStatus.error ∧
      (⟨⟨ItemStatus.downloading, 0, some "video error", none⟩, []⟩ : IObs).item.error ≠ none) :=
  C6_amended "v" "a" "o" staleItem [] c1Script
    ⟨⟨ItemStatus.downloading, 0, some "video error", none⟩, []⟩
    (by rw [c6Trace_eq]; simp)

theorem runningTotals_chain (acc : ℚ) (l : List ℚ) (hl : ∀ c ∈ l, 0 ≤ c) :
    List.Chain' (· ≤ ·) (runningTotals acc l) ∧ ∀ x ∈ runningTotals acc l, acc ≤ x := by
  induction l generalizing acc with
  | nil => simp [runningTotals]
  | cons c cs ih =>
    have hc : 0 ≤ c := hl c (by simp)
    have hcs : ∀ x ∈ cs, 0 ≤ x := fun x hx => hl x (List.mem_cons_of_mem _ hx)
    obtain ⟨ch, hall⟩ := ih (acc + c) hcs
    refine ⟨?_, ?_⟩
    · rw [runningTotals]
      exact List.chain'_cons'.mpr ⟨fun y hy => hall y (List.mem_of_mem_head? hy), ch⟩
    · intro x hx
      rw [runningTotals] at hx
      rcases List.mem_cons.mp hx with rfl | hx
      · linarith
      · linarith [hall x hx]

theorem stageObs_chain {f : ℚ → ℚ} {total : ℚ} {chunks : List ℚ}
    (hf : 0 < total → Monotone f) (hch : ∀ c ∈ chunks, 0 ≤ c) :
    List.Chain' (· ≤ ·) (stageObs f total chunks) := by
  unfold stageObs
  split
  · exact List.chain'_map_of_chain' f (fun x y hxy => hf (by assumption) hxy)
      (runningTotals_chain 0 chunks hch).1
  · simp

theorem stageObs_bounds {f : ℚ → ℚ} {total : ℚ} {chunks : List ℚ} {lo hi : ℚ}
    (hf : 0 < total → ∀ d, 0 ≤ d → lo ≤ f d ∧ f d ≤ hi) (hch : ∀ c ∈ chunks, 0 ≤ c) :
    ∀ x ∈ stageObs f total chunks, lo ≤ x ∧ x ≤ hi := by
  intro x hx
  unfold stageObs at hx
  split at hx
  · simp only [List.mem_map] at hx
    obtain ⟨d, hd, rfl⟩ := hx
    exact hf (by assumption) d ((runningTotals_chain 0 chunks hch).2 d hd)
  · simp at hx

theorem videoStageProgress_mono {t : ℚ} (ht : 0 < t) :
    Monotone fun d => videoStageProgress d t := by
  intro d1 d2 hd
  exact min_le_min le_rfl (by gcongr)

theorem audioStageProgress_mono {t : ℚ} (ht : 0 < t) :
    Monotone fun d => audioStageProgress d t := by
  intro d1 d2 hd
  exact min_le_min le_rfl (by gcongr)

theorem videoStageProgress_bounds {t : ℚ} (ht : 0 < t) (d : ℚ) (hd : 0 ≤ d) :
    0 ≤ videoStageProgress d t ∧ videoStageProgress d t ≤ 40 :=
  ⟨le_min (by norm_num) (by positivity), min_le_left _ _⟩

theorem audioStageProgress_bounds {t : ℚ} (ht : 0 < t) (d : ℚ) (hd : 0 ≤ d) :
    40 ≤ audioStageProgress d t ∧ audioStageProgress d t ≤ 70 := by
  have h30 : (0:ℚ) ≤ d / t * 30 := by positivity
  exact ⟨le_min (by norm_num) (by linarith), min_le_left _ _⟩

theorem chain'_append_of_bounds {l1 l2 : List ℚ} (b : ℚ)
    (h1 : List.Chain' (· ≤ ·) l1) (h2 : List.Chain' (· ≤ ·) l2)
    (hub : ∀ x ∈ l1, x ≤ b) (hlb : ∀ y ∈ l2, b ≤ y) :
    List.Chain' (· ≤ ·) (l1 ++ l2) := by
  refine List.Chain'.append h1 h2 fun x hx y hy => ?_
  have hxb := hub x (List.mem_of_mem_getLast? hx)
  have hby := hlb y (List.mem_of_mem_head? hy)
  linarith

theorem preMergeObs_chain (v a : DownloadScript)
    (hv : ∀ c ∈ v.chunks, 0 ≤ c) (ha : ∀ c ∈ a.chunks, 0 ≤ c) :
    List.Chain' (· ≤ ·) (preMergeObs 0 v a) := by
  have hvb : ∀ x ∈ stageObs (fun d => videoStageProgress d v.totalBytes)
      v.totalBytes v.chunks, 0 ≤ x ∧ x ≤ 40 :=
    stageObs_bounds (fun ht d hd => videoStageProgress_bounds ht d hd) hv
  have hab : ∀ x ∈ stageObs (fun d => audioStageProgress d a.totalBytes)
      a.totalBytes a.chunks, 40 ≤ x ∧ x ≤ 70 :=
    stageObs_bounds (fun ht d hd => audioStageProgress_bounds ht d hd) ha
  have hvchain : List.Chain' (· ≤ ·)
      (stageObs (fun d => videoStageProgress d v.totalBytes) v.totalBytes v.chunks) :=
    stageObs_chain (fun ht => videoStageProgress_mono ht) hv
  have hachain : List.Chain' (· ≤ ·)
      (stageObs (fun d => audioStageProgress d a.totalBytes) a.totalBytes a.chunks) :=
    stageObs_chain (fun ht => audioStageProgress_mono ht) ha
  refine chain'_append_of_bounds 40 ?_ ?_ ?_ ?_
  · exact chain'_append_of_bounds 0 (by norm_num [List.chain'_cons])
      hvchain (by simp) fun y hy => (hvb y hy).1
  · refine chain'_append_of_bounds 70 ?_ (by simp) ?_ (by simp)
    · exact List.chain'_cons'.mpr
        ⟨fun y hy => (hab y (List.mem_of_mem_head? hy)).1, hachain⟩
    · intro x hx
      rcases List.mem_cons.mp hx with rfl | hx
      · norm_num
      · exact (hab x hx).2
  · intro x hx
    rcases List.mem_append.mp hx with hx | hx
    · rcases List.mem_cons.mp hx with rfl | hx
      · norm_num
      · simp only [List.mem_singleton] at hx
        subst hx; norm_num
    · exact (hvb x hx).2
  · intro y hy
    rcases List.mem_append.mp hy with hy | hy
    · rcases List.mem_cons.mp hy with rfl | hy
      · norm_num
      · exact (hab y hy).1
    · simp only [List.mem_singleton] at hy
      subst hy; norm_num

theorem c3Progress_eq :
    (processAttempt "v" "a" "o" demoItem [] c3Script).map (fun o => o.item.progress) =
      [0, 0, 40, 40, 70, 70, 85, 70, 100] := by
  norm_num [processAttempt, c3Script, c3v, c3a, c3m, demoItem, progressObs, stageObs,
    runningTotals, videoStageProgress, audioStageProgress, mergeStageProgress,
    addFile, removeFiles]

/-- C3 (counterexample): observed progress within one attempt is not
non-decreasing, and an absent muxer fraction is not held at the previous
value: the merge handler writes 70 + (percent-or-0) * 0.3, so after the
muxer reported 50 percent (progress 85) an event without a percent field
drops the observed progress back to 70. -/
theorem C3_counterexample :
    ¬ List.Chain' (· ≤ ·)
      ((processAttempt "v" "a" "o" demoItem [] c3Script).map fun o => o.item.progress) := by
  rw [c3Progress_eq]
  intro h
  have h85 : (85:ℚ) ≤ 70 :=
    ((((((h.tail).tail).tail).tail).tail).tail).rel_head
  norm_num at h85

/-- C3 (amended): within one two-stream attempt the observed progress is
non-decreasing up to the start of the merge (attempt start, video data
events clamped to 40, milestone 40, audio data events clamped to 70,
milestone 70); from then on each merge observation equals
70 + 0.3 * (reported percent, defaulted to 0 when absent), so a
fraction-less muxer event resets progress to the stage entry value 70
rather than holding the previous value, and the terminal observation is
100. -/
theorem C3_amended (vp ap op : String) (it0 : Item) (fs0 : List String)
    (v a : DownloadScript) (m : MergeScript)
    (hvok : v.ok = true) (haok : a.ok = true) (hmok : m.ok = true)
    (hv : ∀ c ∈ v.chunks, 0 ≤ c) (ha : ∀ c ∈ a.chunks, 0 ≤ c)
    (h0 : it0.progress = 0) :
    (processAttempt vp ap op it0 fs0 (.twoStream v a m)).map (fun o => o.item.progress) =
      preMergeObs 0 v a ++ (m.events.map mergeStageProgress ++ [100]) ∧
    List.Chain' (· ≤ ·) (preMergeObs 0 v a) ∧
    mergeStageProgress none = 70 := by
  refine ⟨?_, preMergeObs_chain v a hv ha, by norm_num [mergeStageProgress]⟩
  simp [processAttempt, hvok, haok, hmok, preMergeObs, progressObs, h0,
    List.map_append, List.map_map, Function.comp_def, List.map_id']

/-- Witness for C3 (amended) on the concrete two-stream attempt. -/
theorem C3_amended_witness :
    (processAttempt "v" "a" "o" demoItem [] (.twoStream c3v c3a c3m)).map
        (fun o => o.item.progress) =
      preMergeObs 0 c3v c3a ++ (c3m.events.map mergeStageProgress ++ [100]) ∧
    List.Chain' (· ≤ ·) (preMergeObs 0 c3v c3a) ∧
    mergeStageProgress none = 70 :=
  C3_amended "v" "a" "o" demoItem [] c3v c3a c3m rfl rfl rfl
    (by norm_num [c3v]) (by norm_num [c3a]) rfl

/-- C4: the stored aggregate counters do not stay equal to the counts
obtained by scanning items across retried attempts.  failedItems is
incremented once per failed attempt (line 398) and never decremented when
better-queue requeues the item, so after its only item fails once and then
succeeds on the retry, a one-item batch reports failedItems = 1 and
completedItems = 1 (their sum exceeds totalItems = 1) although scanning the
items finds zero failed and one completed item. -/
theorem C4_counter_drift :
    c4Final.failedItems = 1 ∧ c4Final.completedItems = 1 ∧
    (c4Final.items.filter fun i => i.status == ItemStatus.error).length = 0 ∧
    (c4Final.items.filter fun i => i.status == ItemStatus.completed).length = 1 ∧
    c4Final.totalItems = 1 ∧
    c4Final.completedItems + c4Final.failedItems ≠ c4Final.totalItems := by
  norm_num [c4Final, c4Batch, c4FailScript, c4OkScript, readyItem, batchAttempt,
    batchDownload, attemptFinal, failedItem, updateBatchProgress, pendingItemCount,
    List.get?, List.set]
  exact fun h => ItemStatus.noConfusion h

/-- C5 (counterexample): immediately after POST /batch/download on a batch
with no ready item, no constituent item is Queued or Downloading, yet the
batch status is 'downloading' (set unconditionally by the route) and not
'completed' — the status is recomputed only when an item event runs
updateBatchProgress, so the claimed iff fails at this observation point. -/
theorem C5_counterexample :
    ¬ (((batchDownload c5Batch).1.status = BatchStatus.completed) ↔
        pendingItemCount (batchDownload c5Batch).1.items = 0) := by
  intro h
  have h2 : pendingItemCount (batchDownload c5Batch).1.items = 0 := rfl
  exact BatchStatus.noConfusion (h.mpr h2)

/-- C5 (amended): the aggregate status is recomputed only by
updateBatchProgress, which runs on item transition and progress events;
at each such recomputation the status becomes Completed exactly when no
item is Queued or Downloading (items that ended in permanent Failed do not
block this, as the pending count ignores them) or when it was already
Completed; between recomputations — in particular right after a download
start that enqueued zero items — the status keeps its previous value. -/
theorem C5_recompute (b : Batch) :
    ((updateBatchProgress b).status = BatchStatus.completed ↔
      (pendingItemCount b.items = 0 ∨ b.status = BatchStatus.completed)) ∧
    (pendingItemCount b.items = 0 ↔
      ∀ i ∈ b.items, i.status ≠ ItemStatus.queued ∧ i.status ≠ ItemStatus.downloading) := by
  constructor
  · unfold updateBatchProgress
    by_cases hp : pendingItemCount b.items = 0
    · simp [hp]
    · simp [hp]
  · unfold pendingItemCount
    rw [List.length_eq_zero, List.filter_eq_nil_iff]
    constructor
    · intro h i hi
      have := h i hi
      simp only [Bool.or_eq_true, beq_iff_eq, not_or] at this
      exact this
    · intro h i hi
      have := h i hi
      simp only [Bool.or_eq_true, beq_iff_eq, not_or]
      exact this

/-- C9: starting a batch download unconditionally sets the batch status to
'downloading' and enqueues exactly the Ready items; when no item is Ready
(info-resolution never invoked, all items still pending) the call succeeds
with queuedItems = 0, the items are untouched, and since the download queue
runs attempts only for enqueued (previously Ready) items, no item event ever
fires and the batch status stays 'downloading' forever, never becoming
Completed or Failed. -/
theorem C9_no_ready_start (op : String) (b : Batch) (plan : List (ℕ × AttemptScript))
    (hb : ∀ i ∈ b.items, i.status ≠ ItemStatus.ready ∧ i.status ≠ ItemStatus.queued)
    (hplan : ∀ t ∈ plan, t.1 ∈ readyIndices b) :
    (batchDownload b).1.status = BatchStatus.downloading ∧
    (batchDownload b).2 = 0 ∧
    (batchDownload b).1.items = b.items ∧
    runPlan op (batchDownload b).1 plan = (batchDownload b).1 ∧
    (runPlan op (batchDownload b).1 plan).status = BatchStatus.downloading := by
  have hmap : (b.items.map fun i =>
      if i.status == ItemStatus.ready then { i with status := ItemStatus.queued }
      else i) = b.items := by
    refine (List.map_congr_left fun i hi => ?_).trans (List.map_id' b.items)
    simp [(hb i hi).1]
  have hready : readyIndices b = [] := by
    unfold readyIndices
    rw [List.filter_eq_nil_iff]
    intro k hk
    cases hg : b.items.get? k with
    | none => simp [hg]
    | some it =>
        have hmem : it ∈ b.items := List.get?_mem hg
        simp [hg, (hb it hmem).1]
  have hplan0 : plan = [] := by
    cases plan with
    | nil => rfl
    | cons t ts =>
        have := hplan t (by simp)
        rw [hready] at this
        exact absurd this (List.not_mem_nil _)
  have hqueued : ((b.items.filter fun i => i.status == ItemStatus.queued).length) = 0 := by
    rw [List.length_eq_zero, List.filter_eq_nil_iff]
    intro i hi
    simp [(hb i hi).2]
  subst hplan0
  refine ⟨rfl, ?_, ?_, rfl, ?_⟩
  · show ((b.items.map fun i =>
        if i.status == ItemStatus.ready then { i with status := ItemStatus.queued }
        else i).filter fun i => i.status == ItemStatus.queued).length = 0
    rw [hmap]
    exact hqueued
  · show (b.items.map fun i =>
        if i.status == ItemStatus.ready then { i with status := ItemStatus.queued }
        else i) = b.items
    exact hmap
  · rfl

/-- Witness for C9 on a one-item batch whose item is still pending. -/
theorem C9_no_ready_start_witness :
    (batchDownload c5Batch).1.status = BatchStatus.downloading ∧
    (batchDownload c5Batch).2 = 0 ∧
    (batchDownload c5Batch).1.items = c5Batch.items ∧
    runPlan "o" (batchDownload c5Batch).1 [] = (batchDownload c5Batch).1 ∧
    (runPlan "o" (batchDownload c5Batch).1 []).status = BatchStatus.downloading :=
  C9_no_ready_start "o" c5Batch []
    (by
      intro i hi
      simp only [c5Batch, pendingItem, List.mem_singleton] at hi
      subst hi
      exact ⟨fun h => ItemStatus.noConfusion h, fun h => ItemStatus.noConfusion h⟩)
    (by intro t ht; exact absurd ht (List.not_mem_nil t))

theorem getLastD_cons {α : Type} (a d : α) (l : List α) :
    ((a :: l).getLast?.getD d) = l.getLast?.getD a := by
  induction l generalizing a d with
  | nil => rfl
  | cons b bs ih =>
      rw [List.getLast?_cons_cons, ih, ih]

theorem getLastD_append {α : Type} (l1 l2 : List α) (d : α) :
    ((l1 ++ l2).getLast?.getD d) = l2.getLast?.getD (l1.getLast?.getD d) := by
  induction l1 generalizing d with
  | nil => rfl
  | cons a l1 ih =>
      rw [List.cons_append, getLastD_cons, ih, getLastD_cons]

theorem getLastD_concat {α : Type} (l : List α) (a d : α) :
    ((l ++ [a]).getLast?.getD d) = a := by
  rw [getLastD_append]
  rfl

theorem mem_setProg_map {j x : SJob} {ps : List ℚ} (hx : x ∈ ps.map (setProg j)) :
    x.completed = j.completed ∧ x.error = j.error ∧ x.createdAt = j.createdAt := by
  simp only [List.mem_map] at hx
  obtain ⟨p, -, rfl⟩ := hx
  exact ⟨rfl, rfl, rfl⟩

theorem fields_getLastD (j : SJob) (ps : List ℚ) :
    ((ps.map (setProg j)).getLast?.getD j).completed = j.completed ∧
    ((ps.map (setProg j)).getLast?.getD j).error = j.error ∧
    ((ps.map (setProg j)).getLast?.getD j).createdAt = j.createdAt := by
  cases hl : (ps.map (setProg j)).getLast? with
  | none => exact ⟨rfl, rfl, rfl⟩
  | some x =>
      have hx : x ∈ ps.map (setProg j) := List.mem_of_mem_getLast? hl
      exact mem_setProg_map hx

/-- C7: retrieving the output of a failed single job does NOT return the
Failed error carrying the recorded cause.  The route checks job.completed
before job.error, and a failed job never has completed = true, so the
request falls into the same 'Job not completed yet' (NotReady) response an
in-progress job receives; the jobError branch is unreachable for jobs
produced by processing.  This evaluates the route at the failing input. -/
theorem C7_failed_retrieval :
    downloadFileRoute (some c7FailedJob) true = FileResponse.notCompleted ∧
    downloadFileRoute (some c7FailedJob) false = FileResponse.notCompleted ∧
    downloadFileRoute (some c7RunningJob) true = FileResponse.notCompleted ∧
    FileResponse.notCompleted ≠ FileResponse.jobError "Download failed" :=
  ⟨rfl, rfl, rfl, fun h => FileResponse.noConfusion h⟩

/-- C10 (counterexample): a failed single job can report progress = 100 to
the poller.  If the muxer emits a 100-percent progress event and then
fails, the catch block keeps the last progress value, so the registry holds
progress = 100 with completed = false and the error set — refuting the
claim that a failed job's progress never reaches 100. -/
theorem C10_counterexample :
    (finalJobS freshSJob c10Script).completed = false ∧
    (finalJobS freshSJob c10Script).error = some "merge failed" ∧
    (finalJobS freshSJob c10Script).progress = 100 ∧
    ¬ (finalJobS freshSJob c10Script).progress < 100 := by
  have h : finalJobS freshSJob c10Script = ⟨100, false, some "merge failed", 0⟩ := by
    norm_num [finalJobS, processDownloadS, c10Script, freshSJob, setProg, stageObs,
      runningTotals, videoStageProgress, audioStageProgress, mergeStageProgress]
  rw [h]
  refine ⟨rfl, rfl, rfl, by norm_num⟩

theorem processDownloadS_not_completed (j0 : SJob) (s : SingleScript)
    (hfail : s.video.ok = false ∨ s.audio.ok = false ∨ s.merge.ok = false)
    (h0 : j0.completed = false) :
    ∀ j ∈ processDownloadS j0 s, j.completed = false := by
  intro j hj
  cases hv : s.video.ok with
  | false =>
      simp only [processDownloadS, hv, Bool.false_eq_true, if_false] at hj
      rcases List.mem_append.mp hj with hj | hj
      · rw [(mem_setProg_map hj).1]; exact h0
      · simp only [List.mem_singleton] at hj
        subst hj
        show ((_ : List SJob).getLast?.getD j0).completed = false
        rw [(fields_getLastD j0 _).1]; exact h0
  | true =>
      cases ha : s.audio.ok with
      | false =>
          simp only [processDownloadS, hv, ha, Bool.false_eq_true, if_false, if_true] at hj
          rcases List.mem_append.mp hj with hj | hj
          · rw [(mem_setProg_map hj).1]; exact h0
          · rcases List.mem_cons.mp hj with rfl | hj
            · exact h0
            · rcases List.mem_append.mp hj with hj | hj
              · rw [(mem_setProg_map hj).1]; exact h0
              · simp only [List.mem_singleton] at hj
                subst hj
                show ((_ : List SJob).getLast?.getD (setProg j0 40)).completed = false
                rw [(fields_getLastD (setProg j0 40) _).1]; exact h0
      | true =>
          cases hm : s.merge.ok with
          | false =>
              simp only [processDownloadS, hv, ha, hm, Bool.false_eq_true,
                if_false, if_true] at hj
              rcases List.mem_append.mp hj with hj | hj
              · rw [(mem_setProg_map hj).1]; exact h0
              · rcases List.mem_cons.mp hj with rfl | hj
                · exact h0
                · rcases List.mem_append.mp hj with hj | hj
                  · rw [(mem_setProg_map hj).1]; exact h0
                  · rcases List.mem_cons.mp hj with rfl | hj
                    · exact h0
                    · rcases List.mem_append.mp hj with hj | hj
                      · rw [(mem_setProg_map hj).1]; exact h0
                      · simp only [List.mem_singleton] at hj
                        subst hj
                        show ((_ : List SJob).getLast?.getD
                          (setProg (setProg j0 40) 70)).completed = false
                        rw [(fields_getLastD (setProg (setProg j0 40) 70) _).1]; exact h0
          | true =>
              rw [hv, ha, hm] at hfail
              rcases hfail with h | h | h <;> exact Bool.noConfusion h

theorem processDownloadS_vfail (j0 : SJob) (s : SingleScript) (hv : s.video.ok = false) :
    processDownloadS j0 s = vObsS j0 s ++
      [{ (vObsS j0 s).getLast?.getD j0 with error := some s.video.errMsg }] := by
  simp only [processDownloadS, vObsS, hv, Bool.false_eq_true, if_false]

theorem processDownloadS_afail (j0 : SJob) (s : SingleScript)
    (hv : s.video.ok = true) (ha : s.audio.ok = false) :
    processDownloadS j0 s = (vObsS j0 s ++ setProg j0 40 :: aObsS j0 s) ++
      [{ (aObsS j0 s).getLast?.getD (setProg j0 40) with error := some s.audio.errMsg }] := by
  simp only [processDownloadS, vObsS, aObsS, hv, ha, Bool.false_eq_true,
    if_false, if_true, List.append_assoc, List.cons_append]

theorem processDownloadS_mfail (j0 : SJob) (s : SingleScript)
    (hv : s.video.ok = true) (ha : s.audio.ok = true) (hm : s.merge.ok = false) :
    processDownloadS j0 s =
      (vObsS j0 s ++ setProg j0 40 :: (aObsS j0 s ++
        setProg (setProg j0 40) 70 :: mObsS j0 s)) ++
      [{ (mObsS j0 s).getLast?.getD (setProg (setProg j0 40) 70) with
          error := some s.merge.errMsg }] := by
  simp only [processDownloadS, vObsS, aObsS, mObsS, hv, ha, hm, Bool.false_eq_true,
    if_false, if_true, List.append_assoc, List.cons_append]

theorem final_props_of_concat (j0 jL : SJob) (tr X : List SJob) (msg : String)
    (htr : tr = X ++ [{ jL with error := some msg }])
    (hXlast : X.getLast?.getD j0 = jL) :
    (tr.getLast?.getD j0).completed = jL.completed ∧
    (tr.getLast?.getD j0).error = some msg ∧
    (tr.getLast?.getD j0).progress = (tr.dropLast.getLast?.getD j0).progress ∧
    (tr.getLast?.getD j0).createdAt = jL.createdAt := by
  subst htr
  rw [getLastD_concat, List.dropLast_concat, hXlast]
  exact ⟨rfl, rfl, rfl, rfl⟩

/-- After a failing run, the registry entry keeps completed = false and
createdAt, records the cause, and its progress equals the progress of the
state observed immediately before the failure (the catch block does not
touch job.progress). -/
theorem fields_vObsS (j0 : SJob) (s : SingleScript) :
    ((vObsS j0 s).getLast?.getD j0).completed = j0.completed ∧
    ((vObsS j0 s).getLast?.getD j0).createdAt = j0.createdAt := by
  unfold vObsS
  exact ⟨(fields_getLastD j0 _).1, (fields_getLastD j0 _).2.2⟩

theorem fields_aObsS (j0 : SJob) (s : SingleScript) :
    ((aObsS j0 s).getLast?.getD (setProg j0 40)).completed = j0.completed ∧
    ((aObsS j0 s).getLast?.getD (setProg j0 40)).createdAt = j0.createdAt := by
  unfold aObsS
  exact ⟨(fields_getLastD (setProg j0 40) _).1, (fields_getLastD (setProg j0 40) _).2.2⟩

theorem fields_mObsS (j0 : SJob) (s : SingleScript) :
    ((mObsS j0 s).getLast?.getD (setProg (setProg j0 40) 70)).completed = j0.completed ∧
    ((mObsS j0 s).getLast?.getD (setProg (setProg j0 40) 70)).createdAt = j0.createdAt := by
  unfold mObsS
  exact ⟨(fields_getLastD (setProg (setProg j0 40) 70) _).1,
    (fields_getLastD (setProg (setProg j0 40) 70) _).2.2⟩

theorem finalJobS_fail_props (j0 : SJob) (s : SingleScript)
    (hfail : s.video.ok = false ∨ s.audio.ok = false ∨ s.merge.ok = false)
    (h0 : j0.completed = false) :
    (finalJobS j0 s).completed = false ∧
    (finalJobS j0 s).error ≠ none ∧
    (finalJobS j0 s).progress =
      ((processDownloadS j0 s).dropLast.getLast?.getD j0).progress ∧
    (finalJobS j0 s).createdAt = j0.createdAt := by
  cases hv : s.video.ok with
  | false =>
      obtain ⟨h1, h2, h3, h4⟩ := final_props_of_concat j0 _ (processDownloadS j0 s)
        (vObsS j0 s) s.video.errMsg (processDownloadS_vfail j0 s hv) rfl
      refine ⟨?_, ?_, h3, ?_⟩
      · rw [finalJobS, h1, (fields_vObsS j0 s).1]; exact h0
      · rw [finalJobS, h2]; exact fun q => Option.noConfusion q
      · rw [finalJobS, h4, (fields_vObsS j0 s).2]
  | true =>
      cases ha : s.audio.ok with
      | false =>
          have hXlast : (vObsS j0 s ++ setProg j0 40 :: aObsS j0 s).getLast?.getD j0 =
              (aObsS j0 s).getLast?.getD (setProg j0 40) := by
            rw [getLastD_append, getLastD_cons]
          obtain ⟨h1, h2, h3, h4⟩ := final_props_of_concat j0 _ (processDownloadS j0 s)
            (vObsS j0 s ++ setProg j0 40 :: aObsS j0 s) s.audio.errMsg
            (processDownloadS_afail j0 s hv ha) hXlast
          refine ⟨?_, ?_, h3, ?_⟩
          · rw [finalJobS, h1, (fields_aObsS j0 s).1]; exact h0
          · rw [finalJobS, h2]; exact fun q => Option.noConfusion q
          · rw [finalJobS, h4, (fields_aObsS j0 s).2]
      | true =>
          cases hm : s.merge.ok with
          | false =>
              have hXlast : (vObsS j0 s ++ setProg j0 40 :: (aObsS j0 s ++
                  setProg (setProg j0 40) 70 :: mObsS j0 s)).getLast?.getD j0 =
                  (mObsS j0 s).getLast?.getD (setProg (setProg j0 40) 70) := by
                rw [getLastD_append, getLastD_cons, getLastD_append, getLastD_cons]
              obtain ⟨h1, h2, h3, h4⟩ := final_props_of_concat j0 _ (processDownloadS j0 s)
                (vObsS j0 s ++ setProg j0 40 :: (aObsS j0 s ++
                  setProg (setProg j0 40) 70 :: mObsS j0 s)) s.merge.errMsg
                (processDownloadS_mfail j0 s hv ha hm) hXlast
              refine ⟨?_, ?_, h3, ?_⟩
              · rw [finalJobS, h1, (fields_mObsS j0 s).1]; exact h0
              · rw [finalJobS, h2]; exact fun q => Option.noConfusion q
              · rw [finalJobS, h4, (fields_mObsS j0 s).2]
          | true =>
              rw [hv, ha, hm] at hfail
              rcases hfail with h | h | h <;> exact Bool.noConfusion h

/-- C10 (amended): when a standalone single job fails, its registry entry
is not removed: every state the poller can observe (including the final
one) has completed = false, so no poll response ever reports completed =
true; the error message is recorded; the catch block preserves progress, so
the final progress equals the last value reached before the failure — not
reset to 0, though it can equal 100 when the muxer reported 100 percent
before failing (see the counterexample); and the entry survives the hourly
sweep exactly until it is more than one hour old. -/
theorem C10_amended (j0 : SJob) (s : SingleScript) (jid : String) (now : ℤ) (j : SJob)
    (hfail : s.video.ok = false ∨ s.audio.ok = false ∨ s.merge.ok = false)
    (h0 : j0.completed = false)
    (hj : j ∈ processDownloadS j0 s) :
    j.completed = false ∧
    (finalJobS j0 s).completed = false ∧
    (finalJobS j0 s).error ≠ none ∧
    (finalJobS j0 s).progress =
      ((processDownloadS j0 s).dropLast.getLast?.getD j0).progress ∧
    (finalJobS j0 s).createdAt = j0.createdAt ∧
    progressRoute (some (finalJobS j0 s)) =
      some ⟨(finalJobS j0 s).progress, false, (finalJobS j0 s).error⟩ ∧
    cleanupSweep now [(jid, finalJobS j0 s)] =
      (if 3600000 < now - j0.createdAt then [] else [(jid, finalJobS j0 s)]) := by
  obtain ⟨h1, h2, h3, h4⟩ := finalJobS_fail_props j0 s hfail h0
  refine ⟨processDownloadS_not_completed j0 s hfail h0 j hj, h1, h2, h3, h4, ?_, ?_⟩
  · simp [progressRoute, h1]
  · simp only [cleanupSweep, List.filter, h4]
    by_cases hnow : 3600000 < now - j0.createdAt
    · simp [hnow]
    · simp [hnow]

/-- Witness for C10 (amended) on the concrete failing run whose muxer
reported 100 percent before dying, polled at the first observable state. -/
theorem C10_amended_witness :
    (setProg freshSJob 40).completed = false ∧
    (finalJobS freshSJob c10Script).completed = false ∧
    (finalJobS freshSJob c10Script).error ≠ none ∧
    (finalJobS freshSJob c10Script).progress =
      ((processDownloadS freshSJob c10Script).dropLast.getLast?.getD freshSJob).progress ∧
    (finalJobS freshSJob c10Script).createdAt = freshSJob.createdAt ∧
    progressRoute (some (finalJobS freshSJob c10Script)) =
      some ⟨(finalJobS freshSJob c10Script).progress, false,
        (finalJobS freshSJob c10Script).error⟩ ∧
    cleanupSweep 1000 [("job1", finalJobS freshSJob c10Script)] =
      (if 3600000 < 1000 - freshSJob.createdAt then []
       else [("job1", finalJobS freshSJob c10Script)]) :=
  C10_amended freshSJob c10Script "job1" 1000 (setProg freshSJob 40)
    (Or.inr (Or.inr rfl)) rfl
    (by
      norm_num [processDownloadS, c10Script, freshSJob, setProg, stageObs,
        runningTotals, videoStageProgress, audioStageProgress, mergeStageProgress])

theorem schedStep_active_bound {s s' : SchedState} (h : SchedStep s s') :
    s'.active.length ≤ 3 ∨ s'.active.length ≤ s.active.length := by
  cases h with
  | push t => exact Or.inr le_rfl
  | begin t rest hw hcap =>
      left
      simp only [List.length_append, List.length_singleton]
      omega
  | finish t hmem =>
      exact Or.inr (List.Sublist.length_le (List.erase_sublist t s.active))

theorem schedReach_active_le {s : SchedState} (h : SchedReach s) :
    s.active.length ≤ 3 := by
  induction h with
  | init => simp
  | next hr hstep ih =>
      rcases schedStep_active_bound hstep with h | h
      · exact h
      · exact le_trans h ih

/-- C8: at most 3 batch item executors run concurrently, counted
process-wide across all batches — in every queue state reachable from
process start the active set has at most 3 tasks, and while 3 executors are
active the waiting head (whatever batch it belongs to) cannot be admitted:
no step of the queue takes a 3-active state to one where it runs too.  A
4th task can therefore begin only after a finish step shrinks the active
set. -/
theorem C8_bounded_concurrency (s : SchedState) (t : QTask) (rest : List QTask)
    (h : SchedReach s) :
    s.active.length ≤ 3 ∧
    (s.waiting = t :: rest → s.active.length = 3 →
      ¬ SchedStep s ⟨rest, s.active ++ [t]⟩) := by
  refine ⟨schedReach_active_le h, fun hw hcap hstep => ?_⟩
  rcases schedStep_active_bound hstep with hb | hb <;>
    simp [List.length_append, hcap] at hb

theorem schedDemo_reach : SchedReach schedDemo := by
  have h0 : SchedReach ⟨[], []⟩ := SchedReach.init
  have h1 : SchedReach ⟨[⟨0, 0⟩], []⟩ := h0.next (SchedStep.push _ ⟨0, 0⟩)
  have h2 : SchedReach ⟨[], [⟨0, 0⟩]⟩ :=
    h1.next (SchedStep.begin _ ⟨0, 0⟩ [] rfl (by simp))
  have h3 : SchedReach ⟨[⟨1, 1⟩], [⟨0, 0⟩]⟩ := h2.next (SchedStep.push _ ⟨1, 1⟩)
  have h4 : SchedReach ⟨[], [⟨0, 0⟩, ⟨1, 1⟩]⟩ :=
    h3.next (SchedStep.begin _ ⟨1, 1⟩ [] rfl (by simp))
  have h5 : SchedReach ⟨[⟨0, 2⟩], [⟨0, 0⟩, ⟨1, 1⟩]⟩ := h4.next (SchedStep.push _ ⟨0, 2⟩)
  have h6 : SchedReach ⟨[], [⟨0, 0⟩, ⟨1, 1⟩, ⟨0, 2⟩]⟩ :=
    h5.next (SchedStep.begin _ ⟨0, 2⟩ [] rfl (by simp))
  exact h6.next (SchedStep.push _ ⟨1, 3⟩)

/-- Witness for C8 at a reachable state with 3 active executors from two
different batches and a 4th task waiting. -/
theorem C8_bounded_concurrency_witness :
    schedDemo.active.length ≤ 3 ∧
    (schedDemo.waiting = ⟨1, 3⟩ :: [] → schedDemo.active.length = 3 →
      ¬ SchedStep schedDemo ⟨[], schedDemo.active ++ [⟨1, 3⟩]⟩) :=
  C8_bounded_concurrency schedDemo ⟨1, 3⟩ [] schedDemo_reach

end YtDl

